import Mathlib

/-!
Shallow embedding of hd-idle's idle-detection / spin-down engine
(src/hdidle.go) and proofs about its reconciliation behaviour.

Modelling conventions:
* `time.Time` and `time.Duration` are both int64 nanoseconds in Go; they are
  modelled as `Int`.  No arithmetic here can overflow int64 for realistic
  times (overflow needs ~292-year durations), so no modular reduction is
  applied.
* The cumulative read/write counters are unsigned and compared for equality
  only; they are modelled as `Nat`.
* External capabilities (`sgio.StopScsiDevice`, `sgio.StopAtaDevice`,
  `io.RealPath`) are parameters: a stop command returns `none` on success or
  `some errText` on failure; the symlink resolver returns the canonical path
  or `none`.
* Side effects (console prints, log-file lines, capability invocations) are
  collected in an explicit event list, in program order.
* In-place mutation of `previousSnapshots[dsi]` becomes a pure function on
  the selected element (`updateKnown`) plus `List.set` at that index.
-/

/-- Model of `diskstats.DiskStats` as used by hdidle.go (the struct itself
lives in the external diskstats package; its fields are taken from their
uses in hdidle.go).  Timestamps and durations are int64 nanoseconds. -/
structure DiskStats where
  Name : String
  LastIoAt : Int
  SpinUpAt : Int
  SpinDownAt : Int
  SpunDown : Bool
  Writes : Nat
  Reads : Nat
  IdleTime : Int
  CommandType : String
deriving Repr, DecidableEq

/-- Go zero value of `diskstats.DiskStats` (used for unset fields such as
`SpinDownAt` in `initDevice`, and as the out-of-range default for list
access, which never happens for a nonnegative index). -/
def zeroDiskStats : DiskStats :=
  { Name := "", LastIoAt := 0, SpinUpAt := 0, SpinDownAt := 0,
    SpunDown := false, Writes := 0, Reads := 0, IdleTime := 0,
    CommandType := "" }

instance : Inhabited DiskStats := ⟨zeroDiskStats⟩

/-- Model of `DefaultConf` from hdidle.go. -/
structure DefaultConf where
  Idle : Int
  CommandType : String
  Debug : Bool
  LogFile : String
  SymlinkPolicy : Int
deriving Repr, DecidableEq

/-- Model of `DeviceConf` from hdidle.go. -/
structure DeviceConf where
  Name : String
  GivenName : String
  Idle : Int
  CommandType : String
deriving Repr, DecidableEq

/-- Model of `Config` from hdidle.go. -/
structure Config where
  Devices : List DeviceConf
  Defaults : DefaultConf
  SkewTime : Int
deriving Repr, DecidableEq

/-- The constant `SCSI = "scsi"`. -/
def SCSI : String := "scsi"

/-- The constant `ATA = "ata"`. -/
def ATA : String := "ata"

/-- Observable side effects of one engine step, in program order.
`stopScsi` / `stopAta` record an invocation of the external stop-command
capability; `spindownConsole` is the `"%s spindown"` print at the top of
`spindownDisk`; `spindownError` is the console print of a failed command's
error text; `spinupConsole` is the `"%s spinup"` print; `spinupLog` is the
`logSpinup` file line carrying the raw `running` and `stopped` durations in
that order (the Go code renders them truncated to whole seconds); `skewLog`
is the `logSpinupAfterSleep` file line; `symlinkResolved` / `symlinkFailed`
come from `resolveSymlinks`; `debugState` is the per-device debug print. -/
inductive Event where
  | stopScsi (device : String)
  | stopAta (device : String)
  | spindownConsole (device : String)
  | spindownError (msg : String)
  | spinupConsole (disk : String)
  | spinupLog (disk : String) (running : Int) (stopped : Int)
  | skewLog (disk : String)
  | symlinkResolved (givenName realPath : String)
  | symlinkFailed (givenName : String)
  | debugState (ds : DiskStats) (idleDuration : Int)
deriving Repr, DecidableEq

/-- The external stop-command capabilities from the sgio package:
`none` = success, `some errText` = failure. -/
structure Sgio where
  StopScsiDevice : String → Option String
  StopAtaDevice : String → Option String

/-- Model of `spindownDisk` from hdidle.go: print the spindown console line, then
dispatch on the command string; an unrecognized command falls through the
switch and returns nil (success) without invoking any capability. -/
def spindownDisk (sg : Sgio) (device command : String) :
    List Event × Option String :=
  let ev0 := [Event.spindownConsole device]
  if command = SCSI then
    match sg.StopScsiDevice device with
    | some e => (ev0 ++ [Event.stopScsi device],
        some ("cannot spindown scsi disk " ++ device ++ ":\n" ++ e ++ "\n"))
    | none => (ev0 ++ [Event.stopScsi device], none)
  else if command = ATA then
    match sg.StopAtaDevice device with
    | some e => (ev0 ++ [Event.stopAta device],
        some ("cannot spindown ata disk " ++ device ++ ":\n" ++ e ++ "\n"))
    | none => (ev0 ++ [Event.stopAta device], none)
  else (ev0, none)

/-- Model of `logSpinup` from hdidle.go: the emitted line carries
`running = ds.SpinDownAt - ds.SpinUpAt` and `stopped = now - ds.SpinDownAt`
(the format string is `"... running: %d, stopped: %d"`).  The Go code takes
a fresh `time.Now()` inside `logSpinup`; it is modelled by the cycle
timestamp `now`, the only clock value available in the embedding. -/
def logSpinup (ds : DiskStats) (now : Int) : Event :=
  Event.spinupLog ds.Name (ds.SpinDownAt - ds.SpinUpAt) (now - ds.SpinDownAt)

/-- Model of `deviceConfig` from hdidle.go: first configured device whose (canonical)
`Name` equals `diskName`; otherwise a fresh `DeviceConf` carrying the
defaults. -/
def deviceConfig (diskName : String) (config : Config) : DeviceConf :=
  match config.Devices.find? (fun device => device.Name = diskName) with
  | some device => device
  | none =>
    { Name := diskName, GivenName := "",
      CommandType := config.Defaults.CommandType,
      Idle := config.Defaults.Idle }

/-- Model of `initDevice` from hdidle.go.  In the source, `idle`/`command` start as
the defaults and are always overwritten because `deviceConfig` never
returns nil; the net effect is the `deviceConfig` result.  `LastIoAt` and
`SpinUpAt` are two fresh `time.Now()` samples, modelled as the cycle
timestamp `now`; `SpinDownAt` is left at the Go zero value. -/
def initDevice (now : Int) (stats : DiskStats) (config : Config) :
    DiskStats :=
  let deviceConf := deviceConfig stats.Name config
  let idle := deviceConf.Idle
  let command := deviceConf.CommandType
  { Name := stats.Name, LastIoAt := now, SpinUpAt := now, SpinDownAt := 0,
    SpunDown := false, Writes := stats.Writes, Reads := stats.Reads,
    IdleTime := idle, CommandType := command }

/-- Model of `previousDiskStatsIndex` from hdidle.go: index of the first retained
state whose `Name` matches, else -1. -/
def previousDiskStatsIndex (prev : List DiskStats) (diskName : String) :
    Int :=
  match prev with
  | [] => -1
  | stats :: rest =>
    if stats.Name = diskName then 0
    else
      let r := previousDiskStatsIndex rest diskName
      if r < 0 then -1 else r + 1

/-- The console report of a failed spin-down command
(`fmt.Println(err.Error())` guarded by `err != nil`). -/
def errEvents : Option String → List Event
  | some msg => [Event.spindownError msg]
  | none => []

/-- The debug print at the end of `updateState` (guarded by
`config.Defaults.Debug`), carrying the refreshed state and the recomputed
idle duration. -/
def debugEvents (debug : Bool) (dsNew : DiskStats) (now : Int) :
    List Event :=
  if debug then [Event.debugState dsNew (now - dsNew.LastIoAt)] else []

/-- The body of `updateState` for an already-known device: everything the
Go code reads and writes through `previousSnapshots[dsi]`, as a pure
function of that one element.  Returns the updated element and the events
emitted, in program order (skew block, counter comparison, debug print). -/
def updateKnown (sg : Sgio) (now lastNow : Int) (config : Config)
    (tmp ds0 : DiskStats) : DiskStats × List Event :=
  let skew :=
    if config.SkewTime < now - lastNow then
      ({ ds0 with SpinUpAt := now, LastIoAt := now, SpunDown := false },
       [Event.skewLog ds0.Name])
    else (ds0, ([] : List Event))
  let ds := skew.1
  let main :=
    if ds.Writes = tmp.Writes ∧ ds.Reads = tmp.Reads then
      if !ds.SpunDown then
        let idleDuration := now - ds.LastIoAt
        if ds.IdleTime ≠ 0 ∧ ds.IdleTime < idleDuration then
          let device := "/dev/" ++ ds.Name
          let cmd := spindownDisk sg device ds.CommandType
          ({ ds with SpinDownAt := now, SpunDown := true },
           cmd.1 ++ errEvents cmd.2)
        else (ds, ([] : List Event))
      else (ds, ([] : List Event))
    else
      let evSpin :=
        if ds.SpunDown then [Event.spinupConsole ds.Name, logSpinup ds now]
        else ([] : List Event)
      let ds1 := if ds.SpunDown then { ds with SpinUpAt := now } else ds
      ({ ds1 with Reads := tmp.Reads, Writes := tmp.Writes,
                  LastIoAt := now, SpunDown := false }, evSpin)
  (main.1, skew.2 ++ main.2 ++ debugEvents config.Defaults.Debug main.1 now)

/-- Model of `updateState` from hdidle.go: first sighting appends a fresh state and
emits nothing (the Go code returns before the skew and debug blocks);
otherwise the known-device body runs in place at the found index. -/
def updateState (sg : Sgio) (now lastNow : Int) (config : Config)
    (tmp : DiskStats) (prev : List DiskStats) :
    List DiskStats × List Event :=
  let dsi := previousDiskStatsIndex prev tmp.Name
  if dsi < 0 then
    (prev ++ [initDevice now tmp config], [])
  else
    let r := updateKnown sg now lastNow config tmp
        (prev.getD dsi.toNat zeroDiskStats)
    (prev.set dsi.toNat r.1, r.2)

/-- The resolver capability `io.RealPath`: canonical path or failure. -/
abbrev Resolver := String → Option String

/-- Body of the `resolveSymlinks` loop for one configured device: resolve
only when the canonical name is still empty; on success record the name and
log the resolution; on failure leave the entry unchanged and print a
diagnostic only in debug mode. -/
def resolveDevice (realPath : Resolver) (debug : Bool)
    (device : DeviceConf) : DeviceConf × List Event :=
  if device.Name = "" then
    match realPath device.GivenName with
    | some rp =>
      ({ device with Name := rp },
       [Event.symlinkResolved device.GivenName rp])
    | none =>
      (device, if debug then [Event.symlinkFailed device.GivenName] else [])
  else (device, [])

/-- Model of `resolveSymlinks` from hdidle.go: no-op when the symlink policy is
disabled (0); otherwise each configured device is processed independently
by `resolveDevice`. -/
def resolveSymlinks (realPath : Resolver) (config : Config) :
    Config × List Event :=
  if config.Defaults.SymlinkPolicy = 0 then (config, [])
  else
    let results := config.Devices.map (resolveDevice realPath config.Defaults.Debug)
    ({ config with Devices := results.map Prod.fst },
     (results.map Prod.snd).flatten)

/-- The `for _, stats := range actualSnapshot` loop of
`ObserveDiskActivity`, threading the retained state through `updateState`
and concatenating events in order. -/
def reconcileAll (sg : Sgio) (now lastNow : Int) (config : Config)
    (snapshot : List DiskStats) (prev : List DiskStats) :
    List DiskStats × List Event :=
  match snapshot with
  | [] => (prev, [])
  | stats :: rest =>
    let r1 := updateState sg now lastNow config stats prev
    let r2 := reconcileAll sg now lastNow config rest r1.1
    (r2.1, r1.2 ++ r2.2)

/-- The state retained by the engine across polling cycles: the package
globals `previousSnapshots` and `lastNow`, plus the configuration (mutable
through symlink resolution). -/
structure LoopState where
  config : Config
  previousSnapshots : List DiskStats
  lastNow : Int
deriving Repr

/-- Model of `ObserveDiskActivity` from hdidle.go, one polling cycle: take `now`,
resolve symlinks, reconcile every snapshot entry, retain `lastNow := now`.
The snapshot itself is an input (the external `diskstats.Snapshot()`). -/
def ObserveDiskActivity (sg : Sgio) (realPath : Resolver) (now : Int)
    (actualSnapshot : List DiskStats) (s : LoopState) :
    LoopState × List Event :=
  let rs := resolveSymlinks realPath s.config
  let rec' := reconcileAll sg now s.lastNow rs.1 actualSnapshot
      s.previousSnapshots
  ({ config := rs.1, previousSnapshots := rec'.1, lastNow := now },
   rs.2 ++ rec'.2)

/-- Marker: `spindownDisk` was called (its unconditional console print). -/
def isSpindownCall : Event → Bool
  | Event.spindownConsole _ => true
  | _ => false

/-- Marker: the external stop-command capability was invoked. -/
def isStopInvocation : Event → Bool
  | Event.stopScsi _ => true
  | Event.stopAta _ => true
  | _ => false

/-- Marker: a spin-up log event. -/
def isSpinupLog : Event → Bool
  | Event.spinupLog _ _ _ => true
  | _ => false

/-- Marker: a skew (spin-up after sleep) log event. -/
def isSkewLog : Event → Bool
  | Event.skewLog _ => true
  | _ => false

/-- Number of events matching a marker. -/
def countEvents (p : Event → Bool) (evs : List Event) : Nat :=
  (evs.filter p).length

/-- Marker: a failed spin-down command's console error report. -/
def isErrorReport : Event → Bool
  | Event.spindownError _ => true
  | _ => false

/-- The fields of a runtime state fixed at first observation: the tracking
key and the cached configuration pair. -/
def keyFields (ds : DiskStats) : String × Int × String :=
  (ds.Name, ds.IdleTime, ds.CommandType)

/-! ## Concrete fixtures for witnesses and counterexamples -/

/-- Stop capabilities that always succeed. -/
def sgAllOk : Sgio :=
  { StopScsiDevice := fun _ => none, StopAtaDevice := fun _ => none }

/-- A resolver that always fails. -/
def rvFail : Resolver := fun _ => none

/-- A small configuration: default idle 2, skew 120, scsi, no debug. -/
def cfgBase : Config :=
  { Devices := [],
    Defaults := { Idle := 2, CommandType := "scsi", Debug := false,
                  LogFile := "", SymlinkPolicy := 0 },
    SkewTime := 120 }

/-- A tracked device state: idle threshold 2, last I/O at 0, running. -/
def dsSda : DiskStats :=
  { Name := "sda", LastIoAt := 0, SpinUpAt := 0, SpinDownAt := 0,
    SpunDown := false, Writes := 5, Reads := 10, IdleTime := 2,
    CommandType := "scsi" }

/-- A snapshot entry for "sda" with the same counters as `dsSda`. -/
def tmpSda : DiskStats :=
  { zeroDiskStats with Name := "sda", Reads := 10, Writes := 5 }

/-- Stop capabilities that always fail with "io error". -/
def sgFail : Sgio :=
  { StopScsiDevice := fun _ => some "io error",
    StopAtaDevice := fun _ => some "io error" }

/-- A spun-down tracked state: spun up at 0, spun down at 10. -/
def dsC5 : DiskStats :=
  { Name := "sda", LastIoAt := 2, SpinUpAt := 0, SpinDownAt := 10,
    SpunDown := true, Writes := 5, Reads := 10, IdleTime := 2,
    CommandType := "scsi" }

/-- A snapshot entry for "sda" with a changed read counter. -/
def tmpC5 : DiskStats :=
  { zeroDiskStats with Name := "sda", Reads := 12, Writes := 5 }

/-- A configuration with one explicit override for "sdb" (idle 5, ata). -/
def cfgOvr : Config :=
  { Devices := [{ Name := "sdb", GivenName := "sdb", Idle := 5,
                  CommandType := "ata" }],
    Defaults := { Idle := 2, CommandType := "scsi", Debug := false,
                  LogFile := "", SymlinkPolicy := 0 },
    SkewTime := 120 }

/-- A configuration needing resolution: symlink policy on, debug on, one
unresolved entry. -/
def cfgSym : Config :=
  { Devices := [{ Name := "", GivenName := "/dev/disk/by-label/data",
                  Idle := 5, CommandType := "ata" }],
    Defaults := { Idle := 2, CommandType := "scsi", Debug := true,
                  LogFile := "", SymlinkPolicy := 1 },
    SkewTime := 120 }

/-- A tracked state whose cached command protocol is the unrecognized
string "nvme". -/
def dsOdd : DiskStats := { dsSda with CommandType := "nvme" }

/-! ## Supporting lemmas -/

/-- A name matching no retained state yields index -1. -/
theorem previousDiskStatsIndex_none (prev : List DiskStats) (name : String)
    (h : ∀ x ∈ prev, x.Name ≠ name) :
    previousDiskStatsIndex prev name = -1 := by
  induction prev with
  | nil => rfl
  | cons stats rest ih =>
    simp only [previousDiskStatsIndex]
    rw [if_neg (h stats (List.mem_cons_self _ _))]
    rw [ih (fun x hx => h x (List.mem_cons_of_mem _ hx))]
    simp

/-- The first matching position is returned. -/
theorem previousDiskStatsIndex_found (a b : List DiskStats) (ds : DiskStats)
    (name : String) (ha : ∀ x ∈ a, x.Name ≠ name) (hds : ds.Name = name) :
    previousDiskStatsIndex (a ++ ds :: b) name = Int.ofNat a.length := by
  induction a with
  | nil =>
    simp only [List.nil_append, previousDiskStatsIndex]
    rw [if_pos hds]
    rfl
  | cons x rest ih =>
    simp only [List.cons_append, previousDiskStatsIndex]
    rw [if_neg (ha x (List.mem_cons_self _ _))]
    simp only [List.append_eq]
    rw [ih (fun y hy => ha y (List.mem_cons_of_mem _ hy))]
    rw [if_neg (by simp only [Int.ofNat_eq_natCast]; omega)]
    simp only [List.length_cons, Int.ofNat_eq_natCast]
    push_cast
    ring

theorem getD_append_length {α : Type} (a b : List α) (x z : α) :
    (a ++ x :: b).getD a.length z = x := by
  induction a with
  | nil => rfl
  | cons y rest ih => simpa using ih

theorem set_append_length {α : Type} (a b : List α) (x v : α) :
    (a ++ x :: b).set a.length v = a ++ v :: b := by
  induction a with
  | nil => rfl
  | cons y rest ih => simp [ih]

/-- Lemma: `updateState` on a known device rewrites the matched element in place
through `updateKnown` and emits exactly its events. -/
theorem updateState_found (sg : Sgio) (now lastNow : Int) (config : Config)
    (tmp : DiskStats) (a b : List DiskStats) (ds : DiskStats)
    (ha : ∀ x ∈ a, x.Name ≠ tmp.Name) (hds : ds.Name = tmp.Name) :
    updateState sg now lastNow config tmp (a ++ ds :: b) =
      (a ++ (updateKnown sg now lastNow config tmp ds).1 :: b,
       (updateKnown sg now lastNow config tmp ds).2) := by
  simp only [updateState]
  rw [previousDiskStatsIndex_found a b ds tmp.Name ha hds]
  rw [if_neg (by simp only [Int.ofNat_eq_natCast]; omega)]
  simp only [Int.ofNat_eq_natCast, Int.toNat_natCast]
  rw [getD_append_length, set_append_length]

/-- Lemma: `updateState` on an unknown device appends a fresh state, no events. -/
theorem updateState_notFound (sg : Sgio) (now lastNow : Int)
    (config : Config) (tmp : DiskStats) (prev : List DiskStats)
    (h : ∀ x ∈ prev, x.Name ≠ tmp.Name) :
    updateState sg now lastNow config tmp prev =
      (prev ++ [initDevice now tmp config], []) := by
  simp only [updateState]
  rw [previousDiskStatsIndex_none prev tmp.Name h]
  rw [if_pos (by decide)]

theorem countEvents_append (p : Event → Bool) (a b : List Event) :
    countEvents p (a ++ b) = countEvents p a + countEvents p b := by
  simp [countEvents, List.filter_append]

theorem countEvents_nil (p : Event → Bool) : countEvents p [] = 0 := rfl

theorem countEvents_eq_zero (p : Event → Bool) (evs : List Event)
    (h : ∀ e ∈ evs, p e = false) : countEvents p evs = 0 := by
  simp only [countEvents, List.length_eq_zero, List.filter_eq_nil_iff]
  intro e he
  simp [h e he]

/-- The `spindownDisk` call always prints the console line exactly once. -/
theorem spindownDisk_call_count (sg : Sgio) (device command : String) :
    countEvents isSpindownCall (spindownDisk sg device command).1 = 1 := by
  simp only [spindownDisk]
  split
  · cases sg.StopScsiDevice device <;>
      simp [countEvents, isSpindownCall, List.filter]
  · split
    · cases sg.StopAtaDevice device <;>
        simp [countEvents, isSpindownCall, List.filter]
    · simp [countEvents, isSpindownCall, List.filter]

/-- Markers never matched by debug events. -/
theorem countEvents_debugEvents (p : Event → Bool)
    (hp : ∀ x n, p (Event.debugState x n) = false)
    (debug : Bool) (dsNew : DiskStats) (now : Int) :
    countEvents p (debugEvents debug dsNew now) = 0 := by
  cases debug <;> simp [debugEvents, countEvents, List.filter, hp]

/-- Markers never matched by the error report. -/
theorem countEvents_errEvents (p : Event → Bool)
    (hp : ∀ m, p (Event.spindownError m) = false) (r : Option String) :
    countEvents p (errEvents r) = 0 := by
  cases r <;> simp [errEvents, countEvents, List.filter, hp]

/-- Known device, no skew, counters unchanged, live, idle window exceeded:
spin-down path. -/
theorem updateKnown_fire (sg : Sgio) (now lastNow : Int) (config : Config)
    (tmp ds : DiskStats)
    (hskew : ¬ config.SkewTime < now - lastNow)
    (hw : ds.Writes = tmp.Writes) (hr : ds.Reads = tmp.Reads)
    (hdown : ds.SpunDown = false)
    (hfire : ds.IdleTime ≠ 0 ∧ ds.IdleTime < now - ds.LastIoAt) :
    updateKnown sg now lastNow config tmp ds =
      ({ ds with SpinDownAt := now, SpunDown := true },
       (spindownDisk sg ("/dev/" ++ ds.Name) ds.CommandType).1 ++
         errEvents (spindownDisk sg ("/dev/" ++ ds.Name) ds.CommandType).2 ++
         debugEvents config.Defaults.Debug
           { ds with SpinDownAt := now, SpunDown := true } now) := by
  simp only [updateKnown]
  rw [if_neg hskew]
  simp only [if_pos (And.intro hw hr), hdown, Bool.not_false, if_true]
  rw [if_pos hfire]
  simp

/-- Known device, no skew, counters unchanged, live, idle window not
exceeded (or the idle feature disabled): nothing happens. -/
theorem updateKnown_noFire (sg : Sgio) (now lastNow : Int) (config : Config)
    (tmp ds : DiskStats)
    (hskew : ¬ config.SkewTime < now - lastNow)
    (hw : ds.Writes = tmp.Writes) (hr : ds.Reads = tmp.Reads)
    (hdown : ds.SpunDown = false)
    (hfire : ¬ (ds.IdleTime ≠ 0 ∧ ds.IdleTime < now - ds.LastIoAt)) :
    updateKnown sg now lastNow config tmp ds =
      (ds, debugEvents config.Defaults.Debug ds now) := by
  simp only [updateKnown]
  rw [if_neg hskew]
  simp only [if_pos (And.intro hw hr), hdown, Bool.not_false, if_true]
  rw [if_neg hfire]
  simp

/-- Known device, no skew, counters unchanged, already spun down: nothing
happens. -/
theorem updateKnown_alreadyDown (sg : Sgio) (now lastNow : Int)
    (config : Config) (tmp ds : DiskStats)
    (hskew : ¬ config.SkewTime < now - lastNow)
    (hw : ds.Writes = tmp.Writes) (hr : ds.Reads = tmp.Reads)
    (hdown : ds.SpunDown = true) :
    updateKnown sg now lastNow config tmp ds =
      (ds, debugEvents config.Defaults.Debug ds now) := by
  simp only [updateKnown]
  rw [if_neg hskew]
  simp only [if_pos (And.intro hw hr), hdown, Bool.not_true, if_false]
  simp

/-- Known device, no skew, counters changed, was spun down: spin-up path. -/
theorem updateKnown_spinup (sg : Sgio) (now lastNow : Int) (config : Config)
    (tmp ds : DiskStats)
    (hskew : ¬ config.SkewTime < now - lastNow)
    (hch : ¬ (ds.Writes = tmp.Writes ∧ ds.Reads = tmp.Reads))
    (hdown : ds.SpunDown = true) :
    updateKnown sg now lastNow config tmp ds =
      ({ ds with Reads := tmp.Reads, Writes := tmp.Writes,
                 LastIoAt := now, SpinUpAt := now, SpunDown := false },
       [Event.spinupConsole ds.Name, logSpinup ds now] ++
         debugEvents config.Defaults.Debug
           { ds with Reads := tmp.Reads, Writes := tmp.Writes,
                     LastIoAt := now, SpinUpAt := now, SpunDown := false }
           now) := by
  simp only [updateKnown]
  rw [if_neg hskew]
  simp only [if_neg hch, hdown, if_true]
  simp

/-- Known device, no skew, counters changed, was running: plain update. -/
theorem updateKnown_activity (sg : Sgio) (now lastNow : Int)
    (config : Config) (tmp ds : DiskStats)
    (hskew : ¬ config.SkewTime < now - lastNow)
    (hch : ¬ (ds.Writes = tmp.Writes ∧ ds.Reads = tmp.Reads))
    (hdown : ds.SpunDown = false) :
    updateKnown sg now lastNow config tmp ds =
      ({ ds with Reads := tmp.Reads, Writes := tmp.Writes,
                 LastIoAt := now, SpunDown := false },
       debugEvents config.Defaults.Debug
         { ds with Reads := tmp.Reads, Writes := tmp.Writes,
                   LastIoAt := now, SpunDown := false } now) := by
  simp only [updateKnown]
  rw [if_neg hskew]
  simp only [if_neg hch, hdown, if_false]
  simp

/-- Known device, skew fired: forced reset regardless of counters (the
subsequent comparison sees a zero idle duration, so no spin-down when the
idle threshold is nonnegative). -/
theorem updateKnown_skew (sg : Sgio) (now lastNow : Int) (config : Config)
    (tmp ds : DiskStats)
    (hskew : config.SkewTime < now - lastNow)
    (hidle : 0 ≤ ds.IdleTime) :
    updateKnown sg now lastNow config tmp ds =
      ({ ds with Reads := tmp.Reads, Writes := tmp.Writes,
                 SpinUpAt := now, LastIoAt := now, SpunDown := false },
       Event.skewLog ds.Name ::
         debugEvents config.Defaults.Debug
           { ds with Reads := tmp.Reads, Writes := tmp.Writes,
                     SpinUpAt := now, LastIoAt := now, SpunDown := false }
           now) := by
  simp only [updateKnown]
  rw [if_pos hskew]
  by_cases hc : ds.Writes = tmp.Writes ∧ ds.Reads = tmp.Reads
  · simp only [if_pos hc, Bool.not_false, if_true]
    rw [if_neg (by omega)]
    obtain ⟨hw, hr⟩ := hc
    simp [hw, hr]
  · simp only [if_neg hc, if_false]
    simp

/-! ## Claims -/

/-- C1: for a known device whose snapshot counters equal the stored
counters and whose spun_down flag is false, the reconciler issues the
spin-down command (the `spindownDisk` call, counted by its unconditional
console line) and rewrites the state to spun_down = true,
spin_down_at = now exactly when `idle_time ≠ 0` and the idle duration
`now - last_io_at` strictly exceeds `idle_time`; otherwise the state is
left unchanged and no command is issued.  In particular nothing fires at
idle duration exactly `idle_time`, and `idle_time = 0` never fires.  The
hypothesis `hskew` states that skew detection did not fire this cycle,
which is the reconciliation context the claim describes. -/
theorem C1_spindown_guard (sg : Sgio) (now lastNow : Int) (config : Config)
    (tmp ds : DiskStats) (a b : List DiskStats)
    (ha : ∀ x ∈ a, x.Name ≠ tmp.Name) (hname : ds.Name = tmp.Name)
    (hskew : ¬ config.SkewTime < now - lastNow)
    (hw : ds.Writes = tmp.Writes) (hr : ds.Reads = tmp.Reads)
    (hdown : ds.SpunDown = false) :
    ((ds.IdleTime ≠ 0 ∧ ds.IdleTime < now - ds.LastIoAt) →
      (updateState sg now lastNow config tmp (a ++ ds :: b)).1 =
          a ++ { ds with SpinDownAt := now, SpunDown := true } :: b ∧
        countEvents isSpindownCall
          (updateState sg now lastNow config tmp (a ++ ds :: b)).2 = 1) ∧
    (¬ (ds.IdleTime ≠ 0 ∧ ds.IdleTime < now - ds.LastIoAt) →
      (updateState sg now lastNow config tmp (a ++ ds :: b)).1 =
          a ++ ds :: b ∧
        countEvents isSpindownCall
          (updateState sg now lastNow config tmp (a ++ ds :: b)).2 = 0) := by
  rw [updateState_found sg now lastNow config tmp a b ds ha hname]
  constructor
  · intro hfire
    rw [updateKnown_fire sg now lastNow config tmp ds hskew hw hr hdown hfire]
    refine ⟨rfl, ?_⟩
    rw [countEvents_append, countEvents_append,
      spindownDisk_call_count,
      countEvents_errEvents _ (fun m => rfl),
      countEvents_debugEvents _ (fun x n => rfl)]
  · intro hfire
    rw [updateKnown_noFire sg now lastNow config tmp ds hskew hw hr hdown hfire]
    exact ⟨rfl, countEvents_debugEvents _ (fun x n => rfl) _ _ _⟩

/-- Witness for C1 at a concrete input: "sda" with idle threshold 2,
last I/O at 0, observed unchanged at now = 3: the spin-down fires once and
the state becomes spun-down. -/
theorem C1_spindown_guard_witness :
    (updateState sgAllOk 3 0 cfgBase tmpSda [dsSda]).1 =
        [{ dsSda with SpinDownAt := 3, SpunDown := true }] ∧
      countEvents isSpindownCall
        (updateState sgAllOk 3 0 cfgBase tmpSda [dsSda]).2 = 1 :=
  (C1_spindown_guard sgAllOk 3 0 cfgBase tmpSda dsSda [] []
      (by simp) (by decide) (by decide) (by decide) (by decide)
      (by decide)).1 (by decide)

theorem countEvents_cons (p : Event → Bool) (e : Event) (evs : List Event) :
    countEvents p (e :: evs) =
      (if p e then 1 else 0) + countEvents p evs := by
  by_cases h : p e <;> simp [countEvents, List.filter, h, Nat.add_comm]

/-- C2: once spun down, a reconciliation with unchanged counters neither
invokes the stop-command capability nor calls `spindownDisk` again; when
skew detection does not fire the state is bit-for-bit unchanged (skew
detection is the one path that resets the flag, and even in that cycle no
stop command is issued for a nonnegative idle threshold). -/
theorem C2_no_repeat_spindown (sg : Sgio) (now lastNow : Int)
    (config : Config) (tmp ds : DiskStats) (a b : List DiskStats)
    (ha : ∀ x ∈ a, x.Name ≠ tmp.Name) (hname : ds.Name = tmp.Name)
    (hdown : ds.SpunDown = true)
    (hw : ds.Writes = tmp.Writes) (hr : ds.Reads = tmp.Reads)
    (hidle : 0 ≤ ds.IdleTime) :
    countEvents isStopInvocation
        (updateState sg now lastNow config tmp (a ++ ds :: b)).2 = 0 ∧
    countEvents isSpindownCall
        (updateState sg now lastNow config tmp (a ++ ds :: b)).2 = 0 ∧
    (¬ config.SkewTime < now - lastNow →
      (updateState sg now lastNow config tmp (a ++ ds :: b)).1 =
        a ++ ds :: b) := by
  rw [updateState_found sg now lastNow config tmp a b ds ha hname]
  by_cases hsk : config.SkewTime < now - lastNow
  · rw [updateKnown_skew sg now lastNow config tmp ds hsk hidle]
    refine ⟨?_, ?_, fun h => absurd hsk h⟩
    · rw [countEvents_cons, countEvents_debugEvents _ (fun x n => rfl)]
      rfl
    · rw [countEvents_cons, countEvents_debugEvents _ (fun x n => rfl)]
      rfl
  · rw [updateKnown_alreadyDown sg now lastNow config tmp ds hsk hw hr hdown]
    exact ⟨countEvents_debugEvents _ (fun x n => rfl) _ _ _,
      countEvents_debugEvents _ (fun x n => rfl) _ _ _, fun _ => rfl⟩

/-- Witness for C2: the spun-down "sda" observed unchanged at now = 50,
lastNow = 45 (no skew): no command issued, state untouched. -/
theorem C2_no_repeat_spindown_witness :
    countEvents isStopInvocation
        (updateState sgAllOk 50 45 cfgBase tmpSda
          [{ dsSda with SpunDown := true, SpinDownAt := 3 }]).2 = 0 ∧
    countEvents isSpindownCall
        (updateState sgAllOk 50 45 cfgBase tmpSda
          [{ dsSda with SpunDown := true, SpinDownAt := 3 }]).2 = 0 ∧
    (¬ cfgBase.SkewTime < 50 - 45 →
      (updateState sgAllOk 50 45 cfgBase tmpSda
          [{ dsSda with SpunDown := true, SpinDownAt := 3 }]).1 =
        [{ dsSda with SpunDown := true, SpinDownAt := 3 }]) :=
  C2_no_repeat_spindown sgAllOk 50 45 cfgBase tmpSda
    { dsSda with SpunDown := true, SpinDownAt := 3 } [] []
    (by simp) (by decide) (by decide) (by decide) (by decide) (by decide)

/-- C3 counterexample: the skew reset lives inside the per-device branch of
`updateState`, so a known device that does not appear in the current
snapshot is never reset and no skew event is emitted for it.  Here the gap
(200) strictly exceeds skew_time (120), "sda" is a known Device Runtime
State, the cycle's snapshot is empty: after the cycle the state still has
`spin_up_at = 0 ≠ now` and `spun_down` untouched, and no event at all was
emitted — contradicting "every known Device Runtime State is forced to
spin_up_at = now ... and exactly one skew event is emitted per device". -/
theorem C3_counterexample :
    cfgBase.SkewTime < 200 - 0 ∧
    (ObserveDiskActivity sgAllOk rvFail 200 []
        { config := cfgBase, previousSnapshots := [dsSda],
          lastNow := 0 }).1.previousSnapshots = [dsSda] ∧
    dsSda.SpinUpAt ≠ 200 ∧
    (ObserveDiskActivity sgAllOk rvFail 200 []
        { config := cfgBase, previousSnapshots := [dsSda],
          lastNow := 0 }).2 = [] :=
  ⟨by decide, rfl, by decide, rfl⟩

/-- C3 amended: whenever the gap strictly exceeds skew_time, every known
device THAT APPEARS IN THE CURRENT SNAPSHOT is forced to spin_up_at = now,
last_io_at = now, spun_down = false (counters refreshed from the snapshot,
which is the identity when they are unchanged), exactly one skew event is
emitted for it regardless of its counter values, and that event precedes
all other events of the device's reconciliation; the reset happens within
the device's own `updateState` call, immediately before the counter
comparison, not in a separate pass (for a nonnegative idle threshold the
reset also suppresses any spin-down in the same cycle). -/
theorem C3_skew_reset (sg : Sgio) (now lastNow : Int) (config : Config)
    (tmp ds : DiskStats) (a b : List DiskStats)
    (ha : ∀ x ∈ a, x.Name ≠ tmp.Name) (hname : ds.Name = tmp.Name)
    (hskew : config.SkewTime < now - lastNow)
    (hidle : 0 ≤ ds.IdleTime) :
    (updateState sg now lastNow config tmp (a ++ ds :: b)).1 =
        a ++ { ds with Reads := tmp.Reads, Writes := tmp.Writes,
                       SpinUpAt := now, LastIoAt := now,
                       SpunDown := false } :: b ∧
    countEvents isSkewLog
        (updateState sg now lastNow config tmp (a ++ ds :: b)).2 = 1 ∧
    (updateState sg now lastNow config tmp (a ++ ds :: b)).2.head? =
        some (Event.skewLog ds.Name) := by
  rw [updateState_found sg now lastNow config tmp a b ds ha hname]
  rw [updateKnown_skew sg now lastNow config tmp ds hskew hidle]
  refine ⟨rfl, ?_, rfl⟩
  rw [countEvents_cons, countEvents_debugEvents _ (fun x n => rfl)]
  rfl

/-- Witness for C3 (amended): "sda" present in the snapshot, gap 200 over
skew_time 120: reset to just-spun-up with one leading skew event. -/
theorem C3_skew_reset_witness :
    (updateState sgAllOk 200 0 cfgBase tmpSda [dsSda]).1 =
        [{ dsSda with Reads := tmpSda.Reads, Writes := tmpSda.Writes,
                      SpinUpAt := 200, LastIoAt := 200,
                      SpunDown := false }] ∧
    countEvents isSkewLog
        (updateState sgAllOk 200 0 cfgBase tmpSda [dsSda]).2 = 1 ∧
    (updateState sgAllOk 200 0 cfgBase tmpSda [dsSda]).2.head? =
        some (Event.skewLog dsSda.Name) :=
  C3_skew_reset sgAllOk 200 0 cfgBase tmpSda dsSda [] []
    (by simp) (by decide) (by decide) (by decide)

/-- At most one stop-capability invocation per `spindownDisk` call. -/
theorem spindownDisk_stop_count_le (sg : Sgio) (device command : String) :
    countEvents isStopInvocation (spindownDisk sg device command).1 ≤ 1 := by
  simp only [spindownDisk]
  split
  · cases sg.StopScsiDevice device <;>
      simp [countEvents, isStopInvocation, List.filter]
  · split
    · cases sg.StopAtaDevice device <;>
        simp [countEvents, isStopInvocation, List.filter]
    · simp [countEvents, isStopInvocation, List.filter]

/-- C4: when the spin-down decision fires, the state transition
`spin_down_at = now, spun_down = true` is the same expression for every
capability outcome `sg` (the theorem is quantified over `sg`, and the new
state does not mention it), so a failed stop command does not prevent or
roll back the transition; a failure is reported as a console event, and
the capability is invoked at most once (no retry). -/
theorem C4_failed_command_still_transitions (sg : Sgio) (now lastNow : Int)
    (config : Config) (tmp ds : DiskStats) (a b : List DiskStats)
    (ha : ∀ x ∈ a, x.Name ≠ tmp.Name) (hname : ds.Name = tmp.Name)
    (hskew : ¬ config.SkewTime < now - lastNow)
    (hw : ds.Writes = tmp.Writes) (hr : ds.Reads = tmp.Reads)
    (hdown : ds.SpunDown = false)
    (hfire : ds.IdleTime ≠ 0 ∧ ds.IdleTime < now - ds.LastIoAt) :
    (updateState sg now lastNow config tmp (a ++ ds :: b)).1 =
        a ++ { ds with SpinDownAt := now, SpunDown := true } :: b ∧
    (∀ msg, (spindownDisk sg ("/dev/" ++ ds.Name) ds.CommandType).2 = some msg →
        Event.spindownError msg ∈
          (updateState sg now lastNow config tmp (a ++ ds :: b)).2) ∧
    countEvents isStopInvocation
        (updateState sg now lastNow config tmp (a ++ ds :: b)).2 ≤ 1 := by
  rw [updateState_found sg now lastNow config tmp a b ds ha hname]
  rw [updateKnown_fire sg now lastNow config tmp ds hskew hw hr hdown hfire]
  refine ⟨rfl, ?_, ?_⟩
  · intro msg hmsg
    simp [hmsg, errEvents]
  · rw [countEvents_append, countEvents_append,
      countEvents_errEvents _ (fun m => rfl),
      countEvents_debugEvents _ (fun x n => rfl)]
    simpa using spindownDisk_stop_count_le sg ("/dev/" ++ ds.Name) ds.CommandType

/-- Witness for C4: with an always-failing scsi capability, the device still
transitions to spun-down, the failure text is reported, one invocation. -/
theorem C4_failed_command_still_transitions_witness :
    (updateState sgFail 3 0 cfgBase tmpSda [dsSda]).1 =
        [{ dsSda with SpinDownAt := 3, SpunDown := true }] ∧
    Event.spindownError "cannot spindown scsi disk /dev/sda:\nio error\n" ∈
        (updateState sgFail 3 0 cfgBase tmpSda [dsSda]).2 ∧
    countEvents isStopInvocation
        (updateState sgFail 3 0 cfgBase tmpSda [dsSda]).2 ≤ 1 := by
  have h := C4_failed_command_still_transitions sgFail 3 0 cfgBase tmpSda
    dsSda [] [] (by simp) (by decide) (by decide) (by decide) (by decide)
    (by decide) (by decide)
  exact ⟨h.1, h.2.1 _ rfl, h.2.2⟩

/-- C5 counterexample: the claim pairs the reported quantities the wrong
way round.  At now = 25 with spin_up_at = 0, spin_down_at = 10, the code
emits `spinupLog` with running = spin_down_at - spin_up_at = 10 and
stopped = now - spin_down_at = 15 (field order of the `"running: %d,
stopped: %d"` format).  The claim demands duration-spent-stopped =
spin_down_at - spin_up_at and duration-now-running = now - spin_down_at,
i.e. the event `spinupLog "sda" 15 10`, which is not emitted. -/
theorem C5_counterexample :
    (updateState sgAllOk 25 20 cfgBase tmpC5 [dsC5]).2 =
        [Event.spinupConsole "sda", Event.spinupLog "sda" 10 15] ∧
    dsC5.SpinDownAt - dsC5.SpinUpAt = 10 ∧
    25 - dsC5.SpinDownAt = 15 ∧
    Event.spinupLog "sda" (25 - dsC5.SpinDownAt)
        (dsC5.SpinDownAt - dsC5.SpinUpAt) ∉
      (updateState sgAllOk 25 20 cfgBase tmpC5 [dsC5]).2 :=
  ⟨rfl, rfl, rfl, by decide⟩

/-- C5 amended: a spun-down device observed with changed counters emits
exactly one spin-up event reporting the duration spent RUNNING before the
stop and the duration spent STOPPED, computed as spin_down_at - spin_up_at
and now - spin_down_at respectively (the claim's pairing of the two labels
is swapped relative to the code), and sets spin_up_at = now; in both the
changed-while-running and changed-while-spun-down cases reads, writes,
last_io_at = now are updated and spun_down = false. -/
theorem C5_spinup_event (sg : Sgio) (now lastNow : Int) (config : Config)
    (tmp ds : DiskStats) (a b : List DiskStats)
    (ha : ∀ x ∈ a, x.Name ≠ tmp.Name) (hname : ds.Name = tmp.Name)
    (hskew : ¬ config.SkewTime < now - lastNow)
    (hch : ¬ (ds.Writes = tmp.Writes ∧ ds.Reads = tmp.Reads)) :
    (ds.SpunDown = true →
      (updateState sg now lastNow config tmp (a ++ ds :: b)).1 =
          a ++ { ds with Reads := tmp.Reads, Writes := tmp.Writes,
                         LastIoAt := now, SpinUpAt := now,
                         SpunDown := false } :: b ∧
      countEvents isSpinupLog
          (updateState sg now lastNow config tmp (a ++ ds :: b)).2 = 1 ∧
      Event.spinupLog ds.Name (ds.SpinDownAt - ds.SpinUpAt)
          (now - ds.SpinDownAt) ∈
        (updateState sg now lastNow config tmp (a ++ ds :: b)).2) ∧
    (ds.SpunDown = false →
      (updateState sg now lastNow config tmp (a ++ ds :: b)).1 =
          a ++ { ds with Reads := tmp.Reads, Writes := tmp.Writes,
                         LastIoAt := now, SpunDown := false } :: b ∧
      countEvents isSpinupLog
          (updateState sg now lastNow config tmp (a ++ ds :: b)).2 = 0) := by
  rw [updateState_found sg now lastNow config tmp a b ds ha hname]
  constructor
  · intro hdown
    rw [updateKnown_spinup sg now lastNow config tmp ds hskew hch hdown]
    refine ⟨rfl, ?_, ?_⟩
    · rw [countEvents_append, countEvents_debugEvents _ (fun x n => rfl)]
      simp [countEvents, List.filter, isSpinupLog, logSpinup]
    · simp [logSpinup]
  · intro hdown
    rw [updateKnown_activity sg now lastNow config tmp ds hskew hch hdown]
    exact ⟨rfl, countEvents_debugEvents _ (fun x n => rfl) _ _ _⟩

/-- Witness for C5 (amended) at the concrete spun-down "sda". -/
theorem C5_spinup_event_witness :
    (updateState sgAllOk 25 20 cfgBase tmpC5 [dsC5]).1 =
        [{ dsC5 with Reads := tmpC5.Reads, Writes := tmpC5.Writes,
                     LastIoAt := 25, SpinUpAt := 25, SpunDown := false }] ∧
    countEvents isSpinupLog
        (updateState sgAllOk 25 20 cfgBase tmpC5 [dsC5]).2 = 1 ∧
    Event.spinupLog dsC5.Name (dsC5.SpinDownAt - dsC5.SpinUpAt)
        (25 - dsC5.SpinDownAt) ∈
      (updateState sgAllOk 25 20 cfgBase tmpC5 [dsC5]).2 :=
  (C5_spinup_event sgAllOk 25 20 cfgBase tmpC5 dsC5 [] []
      (by simp) (by decide) (by decide) (by decide)).1 (by decide)

/-- C6 counterexample: two observations of a previously-unknown name with
identical counters do NOT always end with spun_down = false.  With default
idle threshold 2 and skew_time 120, "sda" is created at now = 0 (no event),
and the second observation of the very same snapshot entry at now = 10
finds the counters unchanged with idle duration 10 > 2, so the spin-down
fires and the final state has spun_down = true (with a spin-down event). -/
theorem C6_counterexample :
    (ObserveDiskActivity sgAllOk rvFail 0 [tmpSda]
        { config := cfgBase, previousSnapshots := [], lastNow := 0 }).2 =
      [] ∧
    ((ObserveDiskActivity sgAllOk rvFail 10 [tmpSda]
        (ObserveDiskActivity sgAllOk rvFail 0 [tmpSda]
          { config := cfgBase, previousSnapshots := [],
            lastNow := 0 }).1).1.previousSnapshots.map DiskStats.SpunDown) =
      [true] ∧
    countEvents isSpindownCall
        (ObserveDiskActivity sgAllOk rvFail 10 [tmpSda]
          (ObserveDiskActivity sgAllOk rvFail 0 [tmpSda]
            { config := cfgBase, previousSnapshots := [],
              lastNow := 0 }).1).2 = 1 :=
  ⟨rfl, rfl, rfl⟩

/-- C6 amended: a snapshot entry naming an unknown device creates a state
with counters copied from the snapshot, idle threshold and protocol from
the Device Configuration Lookup, last_io_at = spin_up_at = now and
spun_down = false, and emits no event at all on first sighting; observing
the same name a second time with identical counters leaves the state
unchanged (in particular spun_down = false) and emits no spin-down or
spin-up event PROVIDED the elapsed idle duration at the second observation
does not exceed the idle threshold or the threshold is zero (otherwise the
normal idle rule applies and a spin-down can fire). -/
theorem C6_first_sighting (sg : Sgio) (now1 lastNow1 now2 lastNow2 : Int)
    (config : Config) (tmp : DiskStats)
    (hskew2 : ¬ config.SkewTime < now2 - lastNow2)
    (hidle : (deviceConfig tmp.Name config).Idle = 0 ∨
      now2 - now1 ≤ (deviceConfig tmp.Name config).Idle) :
    (∀ prev, (∀ x ∈ prev, x.Name ≠ tmp.Name) →
      updateState sg now1 lastNow1 config tmp prev =
        (prev ++ [initDevice now1 tmp config], [])) ∧
    initDevice now1 tmp config =
      { Name := tmp.Name, LastIoAt := now1, SpinUpAt := now1,
        SpinDownAt := 0, SpunDown := false, Writes := tmp.Writes,
        Reads := tmp.Reads, IdleTime := (deviceConfig tmp.Name config).Idle,
        CommandType := (deviceConfig tmp.Name config).CommandType } ∧
    updateState sg now2 lastNow2 config tmp [initDevice now1 tmp config] =
      ([initDevice now1 tmp config],
       debugEvents config.Defaults.Debug (initDevice now1 tmp config)
         now2) := by
  refine ⟨fun prev h => updateState_notFound sg now1 lastNow1 config tmp prev h,
    rfl, ?_⟩
  have h := updateState_found sg now2 lastNow2 config tmp [] []
    (initDevice now1 tmp config) (by simp) rfl
  simp only [List.nil_append] at h
  rw [h]
  have hnf : ¬ ((initDevice now1 tmp config).IdleTime ≠ 0 ∧
      (initDevice now1 tmp config).IdleTime <
        now2 - (initDevice now1 tmp config).LastIoAt) := by
    have h1 : (initDevice now1 tmp config).IdleTime =
        (deviceConfig tmp.Name config).Idle := rfl
    have h2 : (initDevice now1 tmp config).LastIoAt = now1 := rfl
    rw [h1, h2]
    rcases hidle with h3 | h3
    · rw [h3]
      simp
    · intro hc
      omega
  rw [updateKnown_noFire sg now2 lastNow2 config tmp
    (initDevice now1 tmp config) hskew2 rfl rfl rfl hnf]

/-- Witness for C6 (amended): "sda" first seen at now = 0, re-observed
unchanged at now = 1 (within the idle threshold 2): state unchanged,
nothing emitted. -/
theorem C6_first_sighting_witness :
    updateState sgAllOk 0 0 cfgBase tmpSda [] =
        ([initDevice 0 tmpSda cfgBase], []) ∧
    updateState sgAllOk 1 0 cfgBase tmpSda [initDevice 0 tmpSda cfgBase] =
        ([initDevice 0 tmpSda cfgBase],
         debugEvents cfgBase.Defaults.Debug (initDevice 0 tmpSda cfgBase)
           1) := by
  have h := C6_first_sighting sgAllOk 0 0 1 0 cfgBase tmpSda
    (by decide) (Or.inr (by decide))
  exact ⟨h.1 [] (by simp), h.2.2⟩

/-- The known-device body never touches the tracking key or the cached
configuration pair. -/
theorem updateKnown_keyFields (sg : Sgio) (now lastNow : Int)
    (config : Config) (tmp ds0 : DiskStats) :
    keyFields (updateKnown sg now lastNow config tmp ds0).1 =
      keyFields ds0 := by
  simp only [updateKnown, keyFields]
  split_ifs <;> rfl

/-- One `updateState` call only grows the list and preserves name,
idle_time and command_type at every pre-existing index. -/
theorem updateState_keyFields (sg : Sgio) (now lastNow : Int)
    (config : Config) (tmp : DiskStats) (prev : List DiskStats) :
    prev.length ≤ (updateState sg now lastNow config tmp prev).1.length ∧
    ∀ i, i < prev.length →
      ((updateState sg now lastNow config tmp prev).1[i]?).map keyFields =
        (prev[i]?).map keyFields := by
  simp only [updateState]
  by_cases h : previousDiskStatsIndex prev tmp.Name < 0
  · rw [if_pos h]
    refine ⟨by simp, fun i hi => ?_⟩
    rw [List.getElem?_append_left hi]
  · rw [if_neg h]
    refine ⟨by simp, fun i hi => ?_⟩
    by_cases hij : (previousDiskStatsIndex prev tmp.Name).toNat = i
    · subst hij
      have hjl : (previousDiskStatsIndex prev tmp.Name).toNat <
          prev.length := hi
      rw [List.getElem?_set_eq_of_lt _ hjl, List.getElem?_eq_getElem hjl]
      simp only [Option.map_some']
      rw [updateKnown_keyFields]
      congr 1
      simp [List.getD_eq_getElem?_getD, List.getElem?_eq_getElem hjl]
    · rw [List.getElem?_set_ne hij]

/-- A whole reconciliation pass only grows the list and preserves name,
idle_time and command_type at every pre-existing index. -/
theorem reconcileAll_keyFields (sg : Sgio) (now lastNow : Int)
    (config : Config) (snapshot prev : List DiskStats) :
    prev.length ≤
      (reconcileAll sg now lastNow config snapshot prev).1.length ∧
    ∀ i, i < prev.length →
      ((reconcileAll sg now lastNow config snapshot prev).1[i]?).map
          keyFields =
        (prev[i]?).map keyFields := by
  induction snapshot generalizing prev with
  | nil => exact ⟨le_refl _, fun i hi => rfl⟩
  | cons stats rest ih =>
    simp only [reconcileAll]
    obtain ⟨h1, h2⟩ := updateState_keyFields sg now lastNow config stats prev
    obtain ⟨h3, h4⟩ :=
      ih (updateState sg now lastNow config stats prev).1
    exact ⟨le_trans h1 h3, fun i hi =>
      (h4 i (lt_of_lt_of_le hi h1)).trans (h2 i hi)⟩

/-- C7: `deviceConfig` is a pure function returning the first override
entry whose canonical name matches, and the defaults otherwise; it is
consulted only through `initDevice` at first observation (conjunct three),
and no reconciliation cycle ever changes the cached idle_time or
command_type of an existing Runtime State (conjunct four, over a whole
`ObserveDiskActivity` cycle with arbitrary snapshot). -/
theorem C7_device_config_lookup (diskName : String) (config : Config)
    (sg : Sgio) (rv : Resolver) (now : Int) (snapshot : List DiskStats)
    (s : LoopState) :
    (∀ d, config.Devices.find? (fun device => device.Name = diskName) =
        some d → deviceConfig diskName config = d) ∧
    ((∀ d ∈ config.Devices, d.Name ≠ diskName) →
      deviceConfig diskName config =
        { Name := diskName, GivenName := "",
          CommandType := config.Defaults.CommandType,
          Idle := config.Defaults.Idle }) ∧
    (∀ stats : DiskStats,
      (initDevice now stats config).IdleTime =
          (deviceConfig stats.Name config).Idle ∧
        (initDevice now stats config).CommandType =
          (deviceConfig stats.Name config).CommandType) ∧
    (∀ i : Nat, ∀ ds : DiskStats, s.previousSnapshots[i]? = some ds →
      ∃ ds2 : DiskStats,
        (ObserveDiskActivity sg rv now snapshot
              s).1.previousSnapshots[i]? = some ds2 ∧
          ds2.IdleTime = ds.IdleTime ∧ ds2.CommandType = ds.CommandType) := by
  refine ⟨?_, ?_, fun stats => ⟨rfl, rfl⟩, ?_⟩
  · intro d hfound
    simp only [deviceConfig]
    rw [hfound]
  · intro h
    have hnone : config.Devices.find?
        (fun device => device.Name = diskName) = none := by
      rw [List.find?_eq_none]
      intro x hx
      simp [h x hx]
    simp only [deviceConfig]
    rw [hnone]
  · intro i ds hds
    have hlt : i < s.previousSnapshots.length := by
      by_contra hge
      rw [List.getElem?_eq_none (le_of_not_lt hge)] at hds
      exact Option.noConfusion hds
    obtain ⟨h1, h2⟩ := reconcileAll_keyFields sg now s.lastNow
      (resolveSymlinks rv s.config).1 snapshot s.previousSnapshots
    have hkey := h2 i hlt
    simp only [ObserveDiskActivity]
    rw [hds] at hkey
    cases hx : (reconcileAll sg now s.lastNow (resolveSymlinks rv s.config).1
        snapshot s.previousSnapshots).1[i]? with
    | none => rw [hx] at hkey; exact Option.noConfusion hkey
    | some ds2 =>
      rw [hx] at hkey
      simp only [Option.map_some', Option.some.injEq, keyFields,
        Prod.mk.injEq] at hkey
      exact ⟨ds2, rfl, hkey.2.1, hkey.2.2⟩

/-- Witness for C7: in `cfgOvr`, "sdb" resolves to the override (idle 5,
ata) and "sda" to the defaults; a full cycle over a snapshot leaves the
cached pair of the tracked "sda" unchanged. -/
theorem C7_device_config_lookup_witness :
    deviceConfig "sdb" cfgOvr =
        { Name := "sdb", GivenName := "sdb", Idle := 5,
          CommandType := "ata" } ∧
    deviceConfig "sda" cfgOvr =
        { Name := "sda", GivenName := "",
          CommandType := cfgOvr.Defaults.CommandType,
          Idle := cfgOvr.Defaults.Idle } ∧
    ((ObserveDiskActivity sgAllOk rvFail 7 [tmpSda]
          { config := cfgOvr, previousSnapshots := [dsSda],
            lastNow := 5 }).1.previousSnapshots[0]?).map
        (fun x => (x.IdleTime, x.CommandType)) =
      some (dsSda.IdleTime, dsSda.CommandType) := by
  refine ⟨(C7_device_config_lookup "sdb" cfgOvr sgAllOk rvFail 7 [tmpSda]
      { config := cfgOvr, previousSnapshots := [dsSda],
        lastNow := 5 }).1 _ rfl,
    (C7_device_config_lookup "sda" cfgOvr sgAllOk rvFail 7 [tmpSda]
      { config := cfgOvr, previousSnapshots := [dsSda],
        lastNow := 5 }).2.1 (by decide), ?_⟩
  obtain ⟨ds2, hds2, hIdle, hCmd⟩ :=
    (C7_device_config_lookup "sda" cfgOvr sgAllOk rvFail 7 [tmpSda]
      { config := cfgOvr, previousSnapshots := [dsSda],
        lastNow := 5 }).2.2.2 0 dsSda rfl
  rw [hds2]
  simp [hIdle, hCmd]

/-- C8: the retained state only grows.  An unknown snapshot name appends a
fresh state; a known name rewrites in place keeping the length; the lookup
returns the first index whose name matches; and across one whole cycle the
list length is monotone and every pre-existing index still carries a state
with the same name. -/
theorem C8_monotone_state (sg : Sgio) (rv : Resolver) (now lastNow : Int)
    (config : Config) (tmp : DiskStats) (prev : List DiskStats)
    (snapshot : List DiskStats) (s : LoopState) :
    ((∀ x ∈ prev, x.Name ≠ tmp.Name) →
      (updateState sg now lastNow config tmp prev).1 =
        prev ++ [initDevice now tmp config]) ∧
    (¬ previousDiskStatsIndex prev tmp.Name < 0 →
      (updateState sg now lastNow config tmp prev).1.length =
        prev.length) ∧
    (∀ a b, ∀ ds : DiskStats, (∀ x ∈ a, x.Name ≠ tmp.Name) →
      ds.Name = tmp.Name →
      previousDiskStatsIndex (a ++ ds :: b) tmp.Name =
        Int.ofNat a.length) ∧
    s.previousSnapshots.length ≤
      (ObserveDiskActivity sg rv now snapshot
          s).1.previousSnapshots.length ∧
    (∀ i : Nat, ∀ ds : DiskStats, s.previousSnapshots[i]? = some ds →
      ∃ ds2 : DiskStats,
        (ObserveDiskActivity sg rv now snapshot
              s).1.previousSnapshots[i]? = some ds2 ∧
          ds2.Name = ds.Name) := by
  refine ⟨?_, ?_, ?_, ?_, ?_⟩
  · intro h
    rw [updateState_notFound sg now lastNow config tmp prev h]
  · intro h
    simp only [updateState]
    rw [if_neg h]
    simp
  · intro a b ds h1 h2
    exact previousDiskStatsIndex_found a b ds tmp.Name h1 h2
  · obtain ⟨h1, _⟩ := reconcileAll_keyFields sg now s.lastNow
      (resolveSymlinks rv s.config).1 snapshot s.previousSnapshots
    simpa [ObserveDiskActivity] using h1
  · intro i ds hds
    have hlt : i < s.previousSnapshots.length := by
      by_contra hge
      rw [List.getElem?_eq_none (le_of_not_lt hge)] at hds
      exact Option.noConfusion hds
    obtain ⟨_, h2⟩ := reconcileAll_keyFields sg now s.lastNow
      (resolveSymlinks rv s.config).1 snapshot s.previousSnapshots
    have hkey := h2 i hlt
    simp only [ObserveDiskActivity]
    rw [hds] at hkey
    cases hx : (reconcileAll sg now s.lastNow (resolveSymlinks rv s.config).1
        snapshot s.previousSnapshots).1[i]? with
    | none => rw [hx] at hkey; exact Option.noConfusion hkey
    | some ds2 =>
      rw [hx] at hkey
      simp only [Option.map_some', Option.some.injEq, keyFields,
        Prod.mk.injEq] at hkey
      exact ⟨ds2, rfl, hkey.1⟩

/-- Witness for C8: first sighting of "sda" appends; a cycle over a
one-entry snapshot keeps the tracked "sda" at index 0 under its name. -/
theorem C8_monotone_state_witness :
    (updateState sgAllOk 0 0 cfgBase tmpSda []).1 =
        [] ++ [initDevice 0 tmpSda cfgBase] ∧
    previousDiskStatsIndex [dsSda] "sda" = Int.ofNat 0 ∧
    ((ObserveDiskActivity sgAllOk rvFail 7 [tmpSda]
          { config := cfgBase, previousSnapshots := [dsSda],
            lastNow := 5 }).1.previousSnapshots[0]?).map DiskStats.Name =
      some dsSda.Name := by
  have h := C8_monotone_state sgAllOk rvFail 0 0 cfgBase tmpSda [] [tmpSda]
    { config := cfgBase, previousSnapshots := [dsSda], lastNow := 5 }
  refine ⟨h.1 (by simp), ?_, ?_⟩
  · have := h.2.2.1 [] [] dsSda (by simp) (by decide)
    simpa using this
  · obtain ⟨ds2, hds2, hname⟩ :=
      (C8_monotone_state sgAllOk rvFail 7 5 cfgBase tmpSda [] [tmpSda]
        { config := cfgBase, previousSnapshots := [dsSda],
          lastNow := 5 }).2.2.2.2 0 dsSda rfl
    rw [hds2]
    simp [hname]

/-- An already-resolved entry (nonempty canonical name) is skipped. -/
theorem resolveDevice_skip (rv : Resolver) (dbg : Bool) (d : DeviceConf)
    (h : ¬ d.Name = "") : resolveDevice rv dbg d = (d, []) := by
  simp [resolveDevice, h]

/-- Re-running the per-entry resolution on its own output changes
nothing (for a fixed resolver). -/
theorem resolveDevice_fst_idem (rv : Resolver) (dbg : Bool)
    (d : DeviceConf) :
    (resolveDevice rv dbg (resolveDevice rv dbg d).1).1 =
      (resolveDevice rv dbg d).1 := by
  by_cases h : d.Name = ""
  · cases hrv : rv d.GivenName with
    | none => simp [resolveDevice, h, hrv]
    | some rp =>
      by_cases hrp : rp = ""
      · simp [resolveDevice, h, hrv, hrp]
      · simp [resolveDevice, h, hrv, hrp]
  · simp [resolveDevice, h]

/-- A failure diagnostic can only come from a debug-enabled run. -/
theorem resolveDevice_failed_mem (rv : Resolver) (dbg : Bool)
    (d : DeviceConf) (g : String)
    (h : Event.symlinkFailed g ∈ (resolveDevice rv dbg d).2) :
    dbg = true := by
  by_cases hn : d.Name = ""
  · cases hrv : rv d.GivenName with
    | none =>
      cases dbg
      · simp [resolveDevice, hn, hrv] at h
      · rfl
    | some rp => simp [resolveDevice, hn, hrv] at h
  · simp [resolveDevice, hn] at h

/-- C9: the identity resolver is idempotent and non-fatal: it is the
identity when the symlink policy is disabled or when every entry already
has a canonical name; running it twice yields the same configuration as
running it once (resolution is attempted only where the canonical name is
empty); a failing entry is left exactly as it was; a failure diagnostic is
emitted exactly when the debug flag is set (and never otherwise). -/
theorem C9_resolver_idempotent (rv : Resolver) (config : Config) :
    (config.Defaults.SymlinkPolicy = 0 →
      resolveSymlinks rv config = (config, [])) ∧
    ((∀ d ∈ config.Devices, ¬ d.Name = "") →
      resolveSymlinks rv config = (config, [])) ∧
    (resolveSymlinks rv (resolveSymlinks rv config).1).1 =
      (resolveSymlinks rv config).1 ∧
    (∀ i : Nat, ∀ d : DeviceConf, config.Devices[i]? = some d →
      d.Name = "" → rv d.GivenName = none →
      (resolveSymlinks rv config).1.Devices[i]? = some d) ∧
    (∀ g : String, Event.symlinkFailed g ∈ (resolveSymlinks rv config).2 →
      config.Defaults.Debug = true) ∧
    (∀ i : Nat, ∀ d : DeviceConf, config.Devices[i]? = some d →
      d.Name = "" → rv d.GivenName = none →
      config.Defaults.SymlinkPolicy ≠ 0 → config.Defaults.Debug = true →
      Event.symlinkFailed d.GivenName ∈ (resolveSymlinks rv config).2) := by
  refine ⟨?_, ?_, ?_, ?_, ?_, ?_⟩
  · intro h
    simp [resolveSymlinks, h]
  · intro h
    by_cases hp : config.Defaults.SymlinkPolicy = 0
    · simp [resolveSymlinks, hp]
    · simp only [resolveSymlinks, if_neg hp]
      rw [List.map_congr_left
        (fun d hd => resolveDevice_skip rv config.Defaults.Debug d (h d hd))]
      simp only [List.map_map]
      have h1 : (Prod.fst ∘ fun d : DeviceConf =>
          (d, ([] : List Event))) = id := rfl
      have h2 : ∀ l : List DeviceConf,
          (l.map (Prod.snd ∘ fun d : DeviceConf =>
            (d, ([] : List Event)))).flatten = [] := by
        intro l
        induction l with
        | nil => rfl
        | cons x rest ih => simp [ih]
      rw [h1, List.map_id, h2]
  · by_cases hp : config.Defaults.SymlinkPolicy = 0
    · simp [resolveSymlinks, hp]
    · simp only [resolveSymlinks, if_neg hp, List.map_map]
      congr 1
      apply List.map_congr_left
      intro d _
      exact resolveDevice_fst_idem rv config.Defaults.Debug d
  · intro i d hd hempty hrv
    by_cases hp : config.Defaults.SymlinkPolicy = 0
    · simpa [resolveSymlinks, hp] using hd
    · simp only [resolveSymlinks, if_neg hp, List.map_map]
      rw [List.getElem?_map, hd]
      simp [resolveDevice, hempty, hrv]
  · intro g hg
    by_cases hp : config.Defaults.SymlinkPolicy = 0
    · simp [resolveSymlinks, hp] at hg
    · simp only [resolveSymlinks, if_neg hp] at hg
      rw [List.mem_flatten] at hg
      obtain ⟨s, hs, hgs⟩ := hg
      rw [List.mem_map] at hs
      obtain ⟨pr, hpr, rfl⟩ := hs
      rw [List.mem_map] at hpr
      obtain ⟨d, _, rfl⟩ := hpr
      exact resolveDevice_failed_mem rv config.Defaults.Debug d g hgs
  · intro i d hd hempty hrv hp hdbg
    simp only [resolveSymlinks, if_neg hp]
    rw [List.mem_flatten]
    refine ⟨(resolveDevice rv config.Defaults.Debug d).2, ?_, ?_⟩
    · have hmem : ((config.Devices.map
          (resolveDevice rv config.Defaults.Debug)).map Prod.snd)[i]? =
            some (resolveDevice rv config.Defaults.Debug d).2 := by
        rw [List.getElem?_map, List.getElem?_map, hd]
        rfl
      exact List.getElem?_mem hmem
    · simp [resolveDevice, hempty, hrv, hdbg]

/-- Witness for C9: with the always-failing resolver, the unresolved entry
of `cfgSym` stays unresolved, a second run returns the same configuration,
and the debug diagnostic is emitted. -/
theorem C9_resolver_idempotent_witness :
    (resolveSymlinks rvFail (resolveSymlinks rvFail cfgSym).1).1 =
        (resolveSymlinks rvFail cfgSym).1 ∧
    (resolveSymlinks rvFail cfgSym).1.Devices[0]? =
        some { Name := "", GivenName := "/dev/disk/by-label/data",
               Idle := 5, CommandType := "ata" } ∧
    Event.symlinkFailed "/dev/disk/by-label/data" ∈
        (resolveSymlinks rvFail cfgSym).2 := by
  have h := C9_resolver_idempotent rvFail cfgSym
  exact ⟨h.2.2.1, h.2.2.2.1 0 _ rfl rfl rfl,
    h.2.2.2.2.2 0 _ rfl rfl rfl (by decide) rfl⟩

/-- C10: an unrecognized command string falls through the `spindownDisk`
switch: the console spindown line is printed, no stop capability is
invoked, and nil (success) is returned; consequently a device whose cached
command_type is neither "scsi" nor "ata" still transitions to
spun_down = true when the idle rule fires, with no stop invocation and no
error report. -/
theorem C10_unknown_command_type (sg : Sgio) (device command : String)
    (now lastNow : Int) (config : Config) (tmp ds : DiskStats)
    (a b : List DiskStats)
    (h1 : command ≠ SCSI) (h2 : command ≠ ATA)
    (ha : ∀ x ∈ a, x.Name ≠ tmp.Name) (hname : ds.Name = tmp.Name)
    (hskew : ¬ config.SkewTime < now - lastNow)
    (hw : ds.Writes = tmp.Writes) (hr : ds.Reads = tmp.Reads)
    (hdown : ds.SpunDown = false)
    (hfire : ds.IdleTime ≠ 0 ∧ ds.IdleTime < now - ds.LastIoAt)
    (hc1 : ds.CommandType ≠ SCSI) (hc2 : ds.CommandType ≠ ATA) :
    spindownDisk sg device command =
        ([Event.spindownConsole device], none) ∧
    (updateState sg now lastNow config tmp (a ++ ds :: b)).1 =
        a ++ { ds with SpinDownAt := now, SpunDown := true } :: b ∧
    countEvents isStopInvocation
        (updateState sg now lastNow config tmp (a ++ ds :: b)).2 = 0 ∧
    countEvents isErrorReport
        (updateState sg now lastNow config tmp (a ++ ds :: b)).2 = 0 := by
  have hcmd : spindownDisk sg ("/dev/" ++ ds.Name) ds.CommandType =
      ([Event.spindownConsole ("/dev/" ++ ds.Name)], none) := by
    simp [spindownDisk, hc1, hc2]
  rw [updateState_found sg now lastNow config tmp a b ds ha hname]
  rw [updateKnown_fire sg now lastNow config tmp ds hskew hw hr hdown hfire]
  refine ⟨by simp [spindownDisk, h1, h2], rfl, ?_, ?_⟩
  · rw [hcmd]
    rw [countEvents_append, countEvents_append,
      countEvents_debugEvents _ (fun x n => rfl)]
    rfl
  · rw [hcmd]
    rw [countEvents_append, countEvents_append,
      countEvents_debugEvents _ (fun x n => rfl)]
    rfl

/-- Witness for C10: the "nvme" device still transitions to spun-down at
now = 3 with no stop invocation and no error report, and `spindownDisk`
with the unknown command returns success after only the console line. -/
theorem C10_unknown_command_type_witness :
    spindownDisk sgAllOk "/dev/sda" "nvme" =
        ([Event.spindownConsole "/dev/sda"], none) ∧
    (updateState sgAllOk 3 0 cfgBase tmpSda [dsOdd]).1 =
        [{ dsOdd with SpinDownAt := 3, SpunDown := true }] ∧
    countEvents isStopInvocation
        (updateState sgAllOk 3 0 cfgBase tmpSda [dsOdd]).2 = 0 ∧
    countEvents isErrorReport
        (updateState sgAllOk 3 0 cfgBase tmpSda [dsOdd]).2 = 0 :=
  C10_unknown_command_type sgAllOk "/dev/sda" "nvme" 3 0 cfgBase tmpSda
    dsOdd [] [] (by decide) (by decide) (by simp) (by decide) (by decide)
    (by decide) (by decide) (by decide) (by decide) (by decide) (by decide)
